import Mathlib

/-!
Shallow embedding of the multiplayer game server in
`src/network/game_server.py` (classes `ClientConnection` and `GameServer`),
together with proofs about the spec's claims.

Bytes are modelled as `Nat` (values < 256 where produced by the code),
byte strings as `List Nat`.  A TCP read stream is modelled as the sequence
of chunks successive `socket.recv` calls deliver: `recv n` returns at most
`n` bytes from the front of the pending data; an exhausted stream models a
closed peer (`recv` returns the empty byte string, as Python's
`socket.recv` does at EOF).
-/

namespace GameServer

/-- Big-endian encoding of `n` into `k` bytes: Python's
`n.to_bytes(k, byteorder='big')` (which additionally raises `OverflowError`
when `256 ^ k ≤ n`; that check is modelled at the call site in
`send_message`). -/
def natToBytesBE : Nat → Nat → List Nat
  | 0, _ => []
  | k + 1, n => natToBytesBE k (n / 256) ++ [n % 256]

/-- Big-endian decoding: Python's `int.from_bytes(bs, byteorder='big')`. -/
def bytesToNatBE (bs : List Nat) : Nat :=
  bs.foldl (fun acc b => acc * 256 + b) 0

/-- Pending inbound data of one socket, as the chunks successive kernel
reads will deliver; `[]` is a closed (EOF) stream. -/
abbrev ByteStream := List (List Nat)

/-- One `socket.recv k` call: returns up to `k` bytes from the front of the
pending data (the empty byte string exactly when the stream is exhausted,
i.e. the peer closed), together with the remaining stream. -/
def recv (k : Nat) : ByteStream → List Nat × ByteStream
  | [] => ([], [])
  | c :: rest =>
    let taken := c.take k
    let left := c.drop k
    (taken, if left = [] then rest else left :: rest)

/-- The payload-accumulation loop of `ClientConnection.receive_message`:
`while len(message) < msg_len: chunk = recv(msg_len - len(message));
if not chunk: return None; message += chunk`.  Each iteration either
returns `none` (peer closed mid-payload) or grows `message` by at least one
byte, so `fuel = msgLen` always suffices; the fuel-out branch is
unreachable from `receive_message`. -/
def recvPayload : Nat → List Nat → Nat → ByteStream → Option (List Nat × ByteStream)
  | fuel, message, msgLen, s =>
    if message.length < msgLen then
      match fuel with
      | 0 => none
      | fuel + 1 =>
        let (chunk, s1) := recv (msgLen - message.length) s
        if chunk = [] then none
        else recvPayload fuel (message ++ chunk) msgLen s1
    else some (message, s)

/-- `ClientConnection.receive_message`: one `recv(4)` for the length
prefix (`return None` if it yields nothing), `int.from_bytes` of whatever
that single call returned, then the payload loop.  The Python code finally
UTF-8-decodes the payload bytes via the standard library; the model
returns the payload bytes themselves. -/
def receive_message (s : ByteStream) : Option (List Nat) :=
  let (length_data, s1) := recv 4 s
  if length_data = [] then none
  else
    let msgLen := bytesToNatBE length_data
    match recvPayload msgLen [] msgLen s1 with
    | none => none
    | some (message, _) => some message

/-- The frame bytes `ClientConnection.send_message` writes for a payload:
`len(data).to_bytes(4, 'big') + data`. -/
def encodeFrame (data : List Nat) : List Nat :=
  natToBytesBE 4 data.length ++ data

/-- Mutable per-connection state of `ClientConnection` that the modelled
operations touch: the `connected` liveness flag, and whether the socket
has been closed (`ClientConnection` itself never calls `close`; only
`GameServer._disconnect_client` and the accept loop do). -/
structure ConnState where
  connected : Bool
  closed : Bool
  deriving Repr, DecidableEq

/-- `ClientConnection.send_message`: under the send lock, UTF-8-encode the
message (stdlib; `data` here is already the encoded bytes), build the
4-byte length prefix, and write `length + data` to the socket.  Python's
`to_bytes(4, 'big')` raises `OverflowError` when `2 ^ 32 ≤ len(data)`,
*before* `socket.send` runs; `ioOk` says whether the `socket.send` call
itself succeeds.  Any exception is caught: the method prints, sets
`self.connected = False` and returns `False`.  Result: (return value,
updated connection state, frame written to the socket if any). -/
def send_message (conn : ConnState) (data : List Nat) (ioOk : Bool) :
    Bool × ConnState × Option (List Nat) :=
  if data.length < 2 ^ 32 then
    if ioOk then (true, conn, some (encodeFrame data))
    else (false, { conn with connected := false }, none)
  else
    (false, { conn with connected := false }, none)

/-- Connection states after each operation of a sequence of
`send_message` calls (payload bytes paired with whether the socket write
would succeed). -/
def sendTrace (conn : ConnState) : List (List Nat × Bool) → List ConnState
  | [] => []
  | op :: ops =>
    let conn1 := (send_message conn op.1 op.2).2.1
    conn1 :: sendTrace conn1 ops

/-- Number of `true → false` transitions along a boolean trajectory whose
previous value is the first argument. -/
def countFlips : Bool → List Bool → Nat
  | _, [] => 0
  | prev, b :: bs => (if prev && !b then 1 else 0) + countFlips b bs

/-! ## Registry and connection lifecycle (`GameServer`) -/

/-- The `GameServer.clients` dict: insertion-ordered association list from
client id to a token identifying the accepted socket/connection object. -/
abbrev Registry := List (String × Nat)

/-- Python dict assignment `m[k] = v`: replaces the value in place when the
key is present (keeping its position, as CPython dicts do), otherwise
appends the new entry. -/
def dictInsert (m : Registry) (k : String) (v : Nat) : Registry :=
  if m.any (fun p => p.1 = k) then
    m.map (fun p => if p.1 = k then (k, v) else p)
  else
    m ++ [(k, v)]

/-- Outcome of one iteration of the accept loop for one incoming socket. -/
inductive AcceptOutcome where
  /-- The socket was sent these raw (unframed) bytes, as text, and closed. -/
  | rejected (rawNotice : String) (socketClosed : Bool)
  /-- A `ClientConnection` with this id was registered. -/
  | accepted (id : String)
  deriving Repr, DecidableEq

/-- The body of `GameServer._accept_connections` for one accepted socket
`conn`, under `clients_lock`: if `len(self.clients) >= self.max_players`,
send the raw bytes `b"Server full"` (no length framing), close the socket
and continue; otherwise set `client_id = f"player_{len(self.clients)+1}"`
and insert the new connection into `self.clients`. -/
def accept_connection (maxPlayers : Nat) (m : Registry) (conn : Nat) :
    Registry × AcceptOutcome :=
  if maxPlayers ≤ m.length then
    (m, .rejected "Server full" true)
  else
    let client_id := "player_" ++ toString (m.length + 1)
    (dictInsert m client_id conn, .accepted client_id)

/-- `GameServer._disconnect_client`, under `clients_lock`: if the id is a
key of `self.clients`, close that connection's socket and delete the
entry; otherwise do nothing.  Returns the updated registry and whether a
socket was closed by this call. -/
def disconnect_client (m : Registry) (id : String) : Registry × Bool :=
  if m.any (fun p => p.1 = id) then
    (m.filter (fun p => p.1 ≠ id), true)
  else
    (m, false)

/-- A connection-lifecycle event observed by the server: the accept loop
admitting or rejecting a fresh socket, or a disconnect being reported for
an id. -/
inductive NetEvent where
  | connect
  | disconnect (id : String)
  deriving Repr, DecidableEq

/-- Registry-affecting server state threaded through a sequence of
lifecycle events: the `clients` dict, a counter minting a distinct token
for each accepted socket, and the log of accept outcomes. -/
structure ServerState where
  clients : Registry := []
  nextConn : Nat := 0
  log : List AcceptOutcome := []
  deriving Repr, DecidableEq

/-- One lifecycle event applied to the server state: `connect` runs one
accept-loop iteration on a fresh socket, `disconnect id` runs
`_disconnect_client id` (the path taken by both the receive loop and the
broadcast cleanup). -/
def stepEvent (maxPlayers : Nat) (st : ServerState) : NetEvent → ServerState
  | .connect =>
    let (m1, out) := accept_connection maxPlayers st.clients st.nextConn
    { clients := m1, nextConn := st.nextConn + 1, log := st.log ++ [out] }
  | .disconnect id =>
    { st with clients := (disconnect_client st.clients id).1 }

/-- Run a sequence of lifecycle events against a server started with the
given capacity and an empty registry. -/
def runEvents (maxPlayers : Nat) (events : List NetEvent) : ServerState :=
  events.foldl (stepEvent maxPlayers) {}

/-! ## JSON values, the Router and the Broadcaster -/

/-- A parsed JSON value, as produced by Python's `json.loads`.  Numbers
are modelled as integers; the entity `to_dict` payloads that appear inside
the broadcast state are opaque values of this type. -/
inductive Json where
  | null
  | bool (b : Bool)
  | num (n : Int)
  | str (s : String)
  | arr (xs : List Json)
  | obj (fields : List (String × Json))
  deriving Repr

/-- Python `dict.get k` on an object built by `json.loads`: with duplicate
keys in the source text the later binding wins, so look up the last
matching field. -/
def dictGet (fields : List (String × Json)) (k : String) : Option Json :=
  fields.foldl (fun acc p => if p.1 = k then some p.2 else acc) none

/-- Outcome of `json.loads(message)` on the raw payload text: either a
`json.JSONDecodeError` (malformed JSON) or a parsed value.  `json.loads`
is the Python standard library; the Router is modelled over its result. -/
inductive ParsedPayload where
  | malformed
  | value (v : Json)
  deriving Repr

/-- What one `GameServer._process_game_message` call does with a message. -/
inductive RouterOutcome where
  /-- Dispatched to `_handle_player_action` / `_handle_skill_use`. -/
  | handled (msgType : String)
  /-- `except json.JSONDecodeError`: printed `"Invalid JSON"`, message dropped. -/
  | droppedLogged
  /-- Recognized structure but unmatched `type`: falls through both
  branches, message dropped with no logging. -/
  | droppedSilently
  /-- An exception of this Python type escapes `_process_game_message`
  (and, since `_message_processor` catches only `queue.Empty`, escapes the
  router thread entirely). -/
  | uncaught (excType : String)
  deriving Repr, DecidableEq

/-- `GameServer._process_game_message`: `data = json.loads(message)`;
`msg_type = data.get('type')`; dispatch on `msg_type`.  The only `except`
clause is `json.JSONDecodeError`.  When `json.loads` succeeds but returns
a non-dict value (array, string, number, boolean or null), `data.get`
raises `AttributeError`, which no handler catches. -/
def process_game_message : ParsedPayload → RouterOutcome
  | .malformed => .droppedLogged
  | .value (.obj fields) =>
    match dictGet fields "type" with
    | some (.str "player_action") => .handled "player_action"
    | some (.str "skill_use") => .handled "skill_use"
    | _ => .droppedSilently
  | .value _ => .uncaught "AttributeError"

mutual

/-- Python `json.dumps` with its default separators (`", "` between items,
`": "` after keys), restricted to the values of `Json`; string escaping is
left to the standard library and not modelled (the strings the claims
evaluate contain no characters needing escapes). -/
def jsonDumps : Json → String
  | .null => "null"
  | .bool b => if b then "true" else "false"
  | .num n => toString n
  | .str s => "\"" ++ s ++ "\""
  | .arr xs => "[" ++ jsonDumpsArr xs ++ "]"
  | .obj fs => "\x7b" ++ jsonDumpsObj fs ++ "\x7d"

/-- Comma-joined array elements of `jsonDumps`. -/
def jsonDumpsArr : List Json → String
  | [] => ""
  | [x] => jsonDumps x
  | x :: y :: xs => jsonDumps x ++ ", " ++ jsonDumpsArr (y :: xs)

/-- Comma-joined `"key": value` fields of `jsonDumps`. -/
def jsonDumpsObj : List (String × Json) → String
  | [] => ""
  | [(k, v)] => "\"" ++ k ++ "\": " ++ jsonDumps v
  | (k, v) :: f :: fs => "\"" ++ k ++ "\": " ++ jsonDumps v ++ ", " ++ jsonDumpsObj (f :: fs)

end

/-- The simulation state the broadcaster reads: each player's `to_dict()`
result and, when a boss exists, its `to_dict()` result, as opaque JSON
values (the entity classes are external collaborators). -/
structure GameState where
  players : List Json
  boss : Option Json

/-- `GameServer._serialize_game_state`: the dict
`{'players': [p.to_dict() ...], 'boss': boss.to_dict() or None}`. -/
def serialize_game_state (gs : GameState) : Json :=
  .obj [("players", .arr gs.players),
        ("boss", match gs.boss with | some b => b | none => .null)]

/-- `GameServer._broadcast_game_state`: serialize the game state to text
once (`state_data = json.dumps(...)`), then under `clients_lock` call
`conn.send_message(state_data)` for every registered connection —
collecting into `disconnected` each id whose send returned `False` — and
only after that loop run `_disconnect_client` on each collected id.
Whether a given client's socket write succeeds is the environment `ioOk`.
Returns: the (id, payload-text) pairs sent in order, the registry after
the cleanup, and the ids whose sockets `_disconnect_client` closed.
One cleanup iteration (`self._disconnect_client(cid)` for one collected
id, tracking which sockets got closed) is `broadcastCleanupStep`. -/
def broadcastCleanupStep (acc : Registry × List String) (cid : String) :
    Registry × List String :=
  let r := disconnect_client acc.1 cid
  (r.1, if r.2 then acc.2 ++ [cid] else acc.2)

/-- The broadcast fan-out over the registry followed by the deferred
cleanup fold of `broadcastCleanupStep`; see the comment above. -/
def broadcast_game_state (gs : GameState) (m : Registry) (ioOk : String → Bool) :
    List (String × String) × Registry × List String :=
  let state_data := jsonDumps (serialize_game_state gs)
  let sends := m.map (fun p => (p.1, state_data))
  let disconnected := (m.filter (fun p => ¬ ioOk p.1)).map (fun p => p.1)
  let cleanup := disconnected.foldl broadcastCleanupStep (m, ([] : List String))
  (sends, cleanup.1, cleanup.2)

/-! ## Lemmas about the length-prefix encoding -/

theorem length_natToBytesBE (k n : Nat) : (natToBytesBE k n).length = k := by
  induction k generalizing n with
  | zero => rfl
  | succ k ih => simp [natToBytesBE, ih]

theorem bytesToNatBE_append (bs : List Nat) (b : Nat) :
    bytesToNatBE (bs ++ [b]) = bytesToNatBE bs * 256 + b := by
  simp [bytesToNatBE, List.foldl_append]

theorem bytesToNatBE_natToBytesBE (k n : Nat) (h : n < 256 ^ k) :
    bytesToNatBE (natToBytesBE k n) = n := by
  induction k generalizing n with
  | zero =>
    have hn : n = 0 := by simpa using h
    simp [hn, natToBytesBE, bytesToNatBE]
  | succ k ih =>
    have hdiv : n / 256 < 256 ^ k := by
      apply Nat.div_lt_of_lt_mul
      rw [Nat.mul_comm]
      simpa [Nat.pow_succ] using h
    rw [natToBytesBE, bytesToNatBE_append, ih (n / 256) hdiv]
    omega

theorem natToBytesBE_ne_nil (n : Nat) : natToBytesBE 4 n ≠ [] := by
  intro hcontra
  have := length_natToBytesBE 4 n
  rw [hcontra] at this
  simp at this

theorem recvPayload_done (fuel : Nat) (message : List Nat) (msgLen : Nat)
    (s : ByteStream) (h : ¬ message.length < msgLen) :
    recvPayload fuel message msgLen s = some (message, s) := by
  rw [recvPayload.eq_def]
  simp [h]

theorem recvPayload_step (fuel : Nat) (message : List Nat) (msgLen : Nat)
    (s : ByteStream) (h : message.length < msgLen) :
    recvPayload (fuel + 1) message msgLen s =
      (if (recv (msgLen - message.length) s).1 = [] then none
       else recvPayload fuel (message ++ (recv (msgLen - message.length) s).1)
              msgLen (recv (msgLen - message.length) s).2) := by
  rw [recvPayload.eq_def]
  simp [h]

theorem recv_four_encodeFrame (data : List Nat) :
    recv 4 [encodeFrame data] =
      (natToBytesBE 4 data.length, if data = [] then [] else [data]) := by
  simp only [encodeFrame, recv]
  generalize hg : natToBytesBE 4 data.length = hd
  have h4 : hd.length = 4 := by rw [← hg]; exact length_natToBytesBE 4 data.length
  rw [← h4, List.take_left, List.drop_left]

/-- C4: the claim says frame decoding reads exactly 4 length bytes and
fails with the truncated-frame outcome whenever the stream closes before
all 4 length bytes are available.  The code instead feeds whatever a
single `recv(4)` returned to `int.from_bytes`: on a stream that delivers
only the two bytes `00 00` and then closes, `receive_message` treats them
as a length prefix of value 0 and successfully returns an empty message
instead of failing. -/
theorem c4_short_header_read_accepted :
    receive_message [[0, 0]] = some [] ∧ receive_message [[0, 0]] ≠ none := by
  constructor <;> decide

/-- C5: framing round trip.  For every byte payload whose length is below
the 4-byte length-prefix bound `2 ^ 32`, decoding the stream holding
exactly the frame that `send_message` writes (4-byte big-endian length
prefix followed by the payload) yields back exactly the original payload.
For text payloads this is the round trip of the claim, the UTF-8
encode/decode pair being the Python standard library's. -/
theorem c5_frame_roundtrip (data : List Nat) (h : data.length < 2 ^ 32) :
    receive_message [encodeFrame data] = some data := by
  have hne : natToBytesBE 4 data.length ≠ [] := natToBytesBE_ne_nil data.length
  have hdec : bytesToNatBE (natToBytesBE 4 data.length) = data.length := by
    apply bytesToNatBE_natToBytesBE
    have e : (256 : Nat) ^ 4 = 2 ^ 32 := by norm_num
    rw [e]
    exact h
  rw [receive_message, recv_four_encodeFrame]
  simp only [hne, if_false, hdec]
  cases data with
  | nil =>
    rw [recvPayload_done _ _ _ _ (by simp)]
  | cons d ds =>
    have hlen : (d :: ds).length = ds.length + 1 := by simp
    rw [if_neg (by simp : ¬ (d :: ds) = []), hlen,
      recvPayload_step _ _ _ _ (by simp)]
    have hrecv : recv (ds.length + 1 - ([] : List Nat).length) [d :: ds] = (d :: ds, []) := by
      simp only [recv, List.length_nil, Nat.sub_zero]
      rw [List.take_of_length_le (by simp), List.drop_of_length_le (by simp)]
      simp
    rw [hrecv]
    simp only [List.nil_append, reduceCtorEq, if_false]
    rw [recvPayload_done _ _ _ _ (by simp)]

/-- Witness for C5 at the concrete payload `"Hi"` (UTF-8 bytes 72, 105). -/
theorem c5_frame_roundtrip_witness :
    ([72, 105] : List Nat).length < 2 ^ 32 ∧
      receive_message [encodeFrame [72, 105]] = some [72, 105] :=
  ⟨by norm_num, c5_frame_roundtrip [72, 105] (by norm_num)⟩

/-! ## Lemmas about `send_message` -/

theorem send_message_preserves_disconnected (conn : ConnState) (data : List Nat)
    (ioOk : Bool) (h : conn.connected = false) :
    ((send_message conn data ioOk).2.1).connected = false := by
  rw [send_message]
  split_ifs <;> simp [h]

theorem countFlips_sendTrace_of_false (conn : ConnState)
    (ops : List (List Nat × Bool)) (h : conn.connected = false) :
    countFlips false ((sendTrace conn ops).map (fun c => c.connected)) = 0 := by
  induction ops generalizing conn with
  | nil => rfl
  | cons op ops ih =>
    have h1 := send_message_preserves_disconnected conn op.1 op.2 h
    simp only [sendTrace, List.map_cons, countFlips, h1]
    simpa using ih _ h1

theorem countFlips_sendTrace_le_one (conn : ConnState)
    (ops : List (List Nat × Bool)) :
    countFlips conn.connected ((sendTrace conn ops).map (fun c => c.connected)) ≤ 1 := by
  induction ops generalizing conn with
  | nil => simp [sendTrace, countFlips]
  | cons op ops ih =>
    simp only [sendTrace, List.map_cons, countFlips]
    by_cases hc : ((send_message conn op.1 op.2).2.1).connected = true
    · have := ih ((send_message conn op.1 op.2).2.1)
      simp only [hc] at this ⊢
      simpa using this
    · rw [Bool.not_eq_true] at hc
      simp only [hc, countFlips_sendTrace_of_false _ _ hc]
      split_ifs <;> simp

/-- C8: `send_message` frames and writes the payload (the write lock is
`self.send_lock`, not visible to the sequential model) and returns
success or failure; on success the connection state is untouched and the
frame written is the 4-byte-length-prefixed payload; on failure it sets
`connected := false`; it never closes the socket itself; the `connected`
flag is never set back to `true`, so along any sequence of sends the
`true → false` transition happens at most once. -/
theorem c8_send_flag_transition (conn : ConnState) (data : List Nat) (ioOk : Bool) :
    ((send_message conn data ioOk).1 = true →
        (send_message conn data ioOk).2.1 = conn ∧
        (send_message conn data ioOk).2.2 = some (encodeFrame data)) ∧
    ((send_message conn data ioOk).1 = false →
        ((send_message conn data ioOk).2.1).connected = false) ∧
    ((send_message conn data ioOk).2.1).closed = conn.closed ∧
    (((send_message conn data ioOk).2.1).connected = true → conn.connected = true) ∧
    (∀ ops : List (List Nat × Bool),
      countFlips conn.connected
        ((sendTrace conn ops).map (fun c => c.connected)) ≤ 1) := by
  refine ⟨?_, ?_, ?_, ?_, fun ops => countFlips_sendTrace_le_one conn ops⟩ <;>
    · rw [send_message]
      split_ifs <;> simp

/-- Witness for C8: a failing send on a live connection flips the flag and
a two-send trajectory starting live flips it at most once. -/
theorem c8_send_flag_transition_witness :
    ((send_message ⟨true, false⟩ [7] false).2.1).connected = false ∧
      countFlips true
        ((sendTrace ⟨true, false⟩ [([7], false), ([8], true)]).map (fun c => c.connected)) ≤ 1 := by
  constructor
  · exact (c8_send_flag_transition ⟨true, false⟩ [7] false).2.1 (by decide)
  · exact (c8_send_flag_transition ⟨true, false⟩ [7] false).2.2.2.2
      [([7], false), ([8], true)]

/-- C10: a payload of `2 ^ 32` or more bytes makes `len(data).to_bytes(4)`
raise `OverflowError` before `socket.send` runs; the generic `except`
handler turns this into a `False` return with `connected` flipped to
`false`, and nothing is written to the socket. -/
theorem c10_oversized_payload_send_fails (conn : ConnState) (data : List Nat)
    (ioOk : Bool) (h : 2 ^ 32 ≤ data.length) :
    send_message conn data ioOk = (false, { conn with connected := false }, none) := by
  rw [send_message, if_neg (by omega)]

/-- Witness for C10 at a `2 ^ 32`-byte payload. -/
theorem c10_oversized_payload_send_fails_witness :
    2 ^ 32 ≤ (List.replicate (2 ^ 32) 0).length ∧
      send_message ⟨true, false⟩ (List.replicate (2 ^ 32) 0) true =
        (false, ⟨false, false⟩, none) :=
  ⟨by rw [List.length_replicate],
    c10_oversized_payload_send_fails ⟨true, false⟩ _ true
      (by rw [List.length_replicate])⟩

/-! ## Lemmas about the registry and the connection lifecycle -/

theorem length_dictInsert (m : Registry) (k : String) (v : Nat) :
    (dictInsert m k v).length =
      if m.any (fun p => p.1 = k) then m.length else m.length + 1 := by
  rw [dictInsert]
  split_ifs <;> simp

theorem length_accept_le (maxPlayers : Nat) (m : Registry) (conn : Nat)
    (h : m.length ≤ maxPlayers) :
    ((accept_connection maxPlayers m conn).1).length ≤ maxPlayers := by
  rw [accept_connection]
  split_ifs with h1
  · exact h
  · rw [length_dictInsert]
    split_ifs <;> omega

theorem length_disconnect_le (m : Registry) (id : String) :
    ((disconnect_client m id).1).length ≤ m.length := by
  rw [disconnect_client]
  split_ifs
  · exact List.length_filter_le _ _
  · exact Nat.le_refl _

theorem foldl_stepEvent_length_le (maxPlayers : Nat) (events : List NetEvent)
    (st : ServerState) (h : st.clients.length ≤ maxPlayers) :
    ((events.foldl (stepEvent maxPlayers) st).clients).length ≤ maxPlayers := by
  induction events generalizing st with
  | nil => exact h
  | cons e events ih =>
    rw [List.foldl_cons]
    apply ih
    cases e with
    | connect => exact length_accept_le maxPlayers st.clients st.nextConn h
    | disconnect id =>
      exact Nat.le_trans (length_disconnect_le st.clients id) h

theorem filter_key_gone (m : Registry) (id : String) :
    ((m.filter (fun p => p.1 ≠ id)).any (fun p => p.1 = id)) = false := by
  rw [Bool.eq_false_iff]
  intro hcontra
  rw [List.any_eq_true] at hcontra
  obtain ⟨p, hp, hpid⟩ := hcontra
  rw [List.mem_filter] at hp
  simp only [ne_eq, decide_eq_true_eq, decide_not, Bool.not_eq_true'] at hp hpid
  rw [hpid] at hp
  simp at hp

/-- C2: over every sequence of connect / reject / disconnect events the
registry never outgrows `maxPlayers`; one accept-loop iteration at
capacity returns the rejection outcome with the registry untouched, and
below capacity inserts the connection under the id
`player_{size + 1}` and reports it accepted. -/
theorem c2_registry_capacity (maxPlayers : Nat) :
    (∀ events : List NetEvent,
        ((runEvents maxPlayers events).clients).length ≤ maxPlayers) ∧
    (∀ (m : Registry) (conn : Nat),
        (m.length = maxPlayers →
          accept_connection maxPlayers m conn = (m, .rejected "Server full" true)) ∧
        (m.length < maxPlayers →
          accept_connection maxPlayers m conn =
            (dictInsert m ("player_" ++ toString (m.length + 1)) conn,
             .accepted ("player_" ++ toString (m.length + 1))))) := by
  refine ⟨fun events => foldl_stepEvent_length_le maxPlayers events {} (by simp), ?_⟩
  intro m conn
  constructor
  · intro h
    rw [accept_connection, if_pos (by omega)]
  · intro h
    rw [accept_connection, if_neg (by omega)]

/-- Witness for C2: three connects against capacity 2 leave at most 2
registered, and an accept at a full registry rejects without mutating. -/
theorem c2_registry_capacity_witness :
    ((runEvents 2 [.connect, .connect, .connect]).clients).length ≤ 2 ∧
      accept_connection 2 [("player_1", 0), ("player_2", 1)] 2 =
        ([("player_1", 0), ("player_2", 1)], .rejected "Server full" true) :=
  ⟨(c2_registry_capacity 2).1 [.connect, .connect, .connect],
   ((c2_registry_capacity 2).2 [("player_1", 0), ("player_2", 1)] 2).1 rfl⟩

/-- C1: the claim says a removed id is never reassigned to a different
live connection.  The code mints ids as `f"player_{len(self.clients)+1}"`,
so ids are a function of the current registry size: after
connect, disconnect of `player_1`, connect, the log shows `player_1`
assigned twice — the second time to the distinct later socket (token 1) —
and with capacity 2, after connect, connect, disconnect of `player_1`,
connect, the new socket (token 2) is assigned `player_2`, the id of the
still-live connection (token 1), whose registry entry it silently
overwrites. -/
theorem c1_removed_id_reassigned :
    (runEvents 4 [.connect, .disconnect "player_1", .connect]).log =
        [.accepted "player_1", .accepted "player_1"] ∧
      (runEvents 4 [.connect, .disconnect "player_1", .connect]).clients =
        [("player_1", 1)] ∧
      (runEvents 2 [.connect, .connect, .disconnect "player_1", .connect]).clients =
        [("player_2", 2)] :=
  ⟨rfl, rfl, rfl⟩

/-- C6: an accept-loop iteration arriving while the registry holds
`maxPlayers` entries sends the raw unframed text `"Server full"`, closes
the socket, and leaves the registry untouched (so its size stays
`maxPlayers` and the rejected connection token never enters it). -/
theorem c6_capacity_rejection (maxPlayers : Nat) (m : Registry) (conn : Nat)
    (h : m.length = maxPlayers) :
    accept_connection maxPlayers m conn = (m, .rejected "Server full" true) ∧
      ((accept_connection maxPlayers m conn).1).length = maxPlayers ∧
      (conn ∉ m.map (fun p => p.2) →
        conn ∉ ((accept_connection maxPlayers m conn).1).map (fun p => p.2)) := by
  have heq : accept_connection maxPlayers m conn = (m, .rejected "Server full" true) := by
    rw [accept_connection, if_pos (by omega)]
  exact ⟨heq, by rw [heq]; exact h, by rw [heq]; exact id⟩

/-- Witness for C6: a third connection against a full 2-slot registry. -/
theorem c6_capacity_rejection_witness :
    ([("player_1", 0), ("player_2", 1)] : Registry).length = 2 ∧
      accept_connection 2 [("player_1", 0), ("player_2", 1)] 5 =
        ([("player_1", 0), ("player_2", 1)], .rejected "Server full" true) :=
  ⟨rfl, (c6_capacity_rejection 2 [("player_1", 0), ("player_2", 1)] 5 rfl).1⟩

/-- C9: `_disconnect_client` is idempotent.  Removing an absent id
returns the registry unchanged and closes nothing; after a removal, a
second removal of the same id (the concurrent report from the other path)
is a no-op that closes no socket; a present id is removed and its socket
closed by exactly that one call. -/
theorem c9_remove_idempotent (m : Registry) (id : String) :
    (m.any (fun p => p.1 = id) = false → disconnect_client m id = (m, false)) ∧
      disconnect_client (disconnect_client m id).1 id =
        ((disconnect_client m id).1, false) ∧
      (m.any (fun p => p.1 = id) = true →
        ((disconnect_client m id).1).any (fun p => p.1 = id) = false ∧
          (disconnect_client m id).2 = true) := by
  refine ⟨?_, ?_, ?_⟩
  · intro h
    rw [disconnect_client, if_neg (by rw [h]; exact Bool.false_ne_true)]
  · by_cases h : m.any (fun p => p.1 = id) = true
    · have hin : disconnect_client m id = (m.filter (fun p => p.1 ≠ id), true) := by
        rw [disconnect_client, if_pos h]
      rw [hin]
      rw [disconnect_client, if_neg (by rw [filter_key_gone]; exact Bool.false_ne_true)]
    · rw [Bool.not_eq_true] at h
      have hin : disconnect_client m id = (m, false) := by
        rw [disconnect_client, if_neg (by rw [h]; exact Bool.false_ne_true)]
      rw [hin]
      exact hin
  · intro h
    rw [disconnect_client, if_pos h]
    exact ⟨filter_key_gone m id, rfl⟩

/-- Witness for C9: removing an id from the empty registry is a no-op,
and a double removal of a present id removes and closes only once. -/
theorem c9_remove_idempotent_witness :
    disconnect_client ([] : Registry) "player_1" = ([], false) ∧
      disconnect_client (disconnect_client [("player_1", 0)] "player_1").1 "player_1" =
        ((disconnect_client [("player_1", 0)] "player_1").1, false) :=
  ⟨(c9_remove_idempotent [] "player_1").1 rfl,
   (c9_remove_idempotent [("player_1", 0)] "player_1").2.1⟩

/-! ## Router dispatch -/

/-- C3: the claim says dispatch never lets an exception out of the Router.
The only `except` clause of `_process_game_message` is
`json.JSONDecodeError`, so the raw payload `"[]"` — valid JSON whose value
is an array, not a dict — makes `data.get('type')` raise
`AttributeError`, which escapes `_process_game_message` (and kills the
`_message_processor` thread, whose only handler is `queue.Empty`).  The
two behaviors the claim describes do hold on the paths it names: a
malformed payload is dropped and logged, and a well-formed object with an
unrecognized `type` is dropped silently. -/
theorem c3_nondict_payload_escapes_router :
    process_game_message (.value (.arr [])) = .uncaught "AttributeError" ∧
      process_game_message .malformed = .droppedLogged ∧
      process_game_message (.value (.obj [("type", .str "unknown_kind")])) =
        .droppedSilently :=
  ⟨rfl, rfl, rfl⟩

/-! ## Broadcaster lemmas -/

theorem disconnect_client_fst (m : Registry) (id : String) :
    (disconnect_client m id).1 = m.filter (fun p => p.1 ≠ id) := by
  rw [disconnect_client]
  split_ifs with h
  · rfl
  · rw [Bool.not_eq_true, List.any_eq_false] at h
    refine (List.filter_eq_self.mpr fun a ha => ?_).symm
    have := h a ha
    simpa using this

theorem foldl_cleanup_fst (ids : List String) (acc : Registry × List String) :
    ((ids.foldl broadcastCleanupStep acc).1) =
      acc.1.filter (fun p => p.1 ∉ ids) := by
  induction ids generalizing acc with
  | nil => simp
  | cons cid ids ih =>
    rw [List.foldl_cons, ih]
    have hfst : (broadcastCleanupStep acc cid).1 = acc.1.filter (fun p => p.1 ≠ cid) := by
      rw [broadcastCleanupStep, disconnect_client_fst]
    rw [hfst, List.filter_filter]
    apply List.filter_congr
    intro a _
    simp [List.mem_cons, not_or, Bool.and_comm]

theorem foldl_cleanup_snd (ids : List String) (acc : Registry × List String)
    (hnd : ids.Nodup) (hmem : ∀ cid ∈ ids, acc.1.any (fun p => p.1 = cid) = true) :
    ((ids.foldl broadcastCleanupStep acc).2) = acc.2 ++ ids := by
  induction ids generalizing acc with
  | nil => simp
  | cons cid ids ih =>
    rw [List.foldl_cons]
    have hstep : broadcastCleanupStep acc cid =
        (acc.1.filter (fun p => p.1 ≠ cid), acc.2 ++ [cid]) := by
      rw [broadcastCleanupStep, disconnect_client,
        if_pos (hmem cid (List.mem_cons_self cid ids))]
      rfl
    rw [hstep, ih _ (List.Nodup.of_cons hnd)]
    · simp
    · intro c hc
      obtain ⟨p, hp, hpc⟩ := by
        have := hmem c (List.mem_cons_of_mem cid hc)
        rw [List.any_eq_true] at this
        exact this
      rw [List.any_eq_true]
      refine ⟨p, ?_, hpc⟩
      rw [List.mem_filter]
      refine ⟨hp, ?_⟩
      have hne : c ≠ cid := by
        intro hcontra
        rw [hcontra] at hc
        exact (List.nodup_cons.mp hnd).1 hc
      simp only [decide_eq_true_eq] at hpc
      simp [hpc, hne]

/-- C7: each broadcast serializes the snapshot once as
`json.dumps({'players': [...], 'boss': ...})` and hands every registered
connection — in registry order, including the ones whose send will fail —
that same serialized text; after the fan-out, exactly the connections
whose send failed are removed, and (for a registry with distinct ids, as
the dict guarantees) exactly their sockets are closed. -/
theorem c7_broadcast_single_serialization (gs : GameState) (m : Registry)
    (ioOk : String → Bool) :
    (broadcast_game_state gs m ioOk).1 =
        m.map (fun p => (p.1, jsonDumps (serialize_game_state gs))) ∧
      (broadcast_game_state gs m ioOk).2.1 = m.filter (fun p => ioOk p.1) ∧
      ((m.map (fun p => p.1)).Nodup →
        (broadcast_game_state gs m ioOk).2.2 =
          (m.filter (fun p => ¬ ioOk p.1)).map (fun p => p.1)) := by
  refine ⟨rfl, ?_, ?_⟩
  · show ((((m.filter (fun p => ¬ ioOk p.1)).map (fun p => p.1)).foldl
        broadcastCleanupStep (m, ([] : List String))).1) = m.filter (fun p => ioOk p.1)
    rw [foldl_cleanup_fst]
    apply List.filter_congr
    intro p hp
    have hpm : p ∈ m := hp
    have hiff : p.1 ∈ (m.filter (fun q => ¬ ioOk q.1)).map (fun q => q.1) ↔
        ioOk p.1 = false := by
      constructor
      · intro hmem
        rw [List.mem_map] at hmem
        obtain ⟨q, hq, hqp⟩ := hmem
        rw [List.mem_filter] at hq
        have hqio : ioOk q.1 = false := by simpa using hq.2
        rw [← hqp]
        exact hqio
      · intro hio
        rw [List.mem_map]
        exact ⟨p, List.mem_filter.mpr ⟨hpm, by simp [hio]⟩, rfl⟩
    cases hio : ioOk p.1 with
    | false => exact decide_eq_false (not_not_intro (hiff.mpr hio))
    | true =>
      have hnot : p.1 ∉ (m.filter (fun q => ¬ ioOk q.1)).map (fun q => q.1) := by
        intro hmem
        rw [hiff.mp hmem] at hio
        exact Bool.false_ne_true hio
      exact decide_eq_true hnot
  · intro hnd
    show ((((m.filter (fun p => ¬ ioOk p.1)).map (fun p => p.1)).foldl
        broadcastCleanupStep (m, ([] : List String))).2) =
      (m.filter (fun p => ¬ ioOk p.1)).map (fun p => p.1)
    rw [foldl_cleanup_snd]
    · simp
    · exact List.Nodup.sublist
        (List.Sublist.map (fun p => p.1) (List.filter_sublist m)) hnd
    · intro cid hcid
      rw [List.mem_map] at hcid
      obtain ⟨p, hp, hpc⟩ := hcid
      rw [List.any_eq_true]
      refine ⟨p, (List.mem_filter.mp hp).1, by simp [hpc]⟩

/-- Witness for C7 on a two-client registry where only `player_1`'s send
succeeds. -/
theorem c7_broadcast_single_serialization_witness :
    (broadcast_game_state ⟨[], none⟩ [("player_1", 0), ("player_2", 1)]
        (fun id => id == "player_1")).2.2 = ["player_2"] := by
  have h := (c7_broadcast_single_serialization ⟨[], none⟩
    [("player_1", 0), ("player_2", 1)] (fun id => id == "player_1")).2.2 (by decide)
  rw [h]
  rfl

end GameServer
